import Mathlib

/-!
Shallow embedding of `globus_throttled` (token-bucket throttler).

Source file: `src/globus_throttled/throttler.py`.

Modelling choices:
* Python `float` timestamps and token counts become `ℚ` (the spec treats them
  as exact real numbers; every operation here is rational).
* The two-level dict `_resource_buckets` becomes an association list
  `List (String × List (String × Item))`.  Python dict keys are unique, so
  key-deletion is modelled by filtering every occurrence, and key-update by
  replacing the first occurrence (identical on unique-key lists).
* JSON values appearing in `throttle_params` are either an integer or some
  non-integer value (`JVal.jother`); that is all `isinstance(…, int)` can see.
* `tornado.web.HTTPError(400, reason)` becomes the `HTTPError` structure and
  raising becomes returning `Except.error`; an error return carries no store,
  matching the fact that the exception propagates before any store access.
* `time.time()` becomes an explicit `now : ℚ` argument (cleanup calls
  `time.time()` once per item; we model the sweep with a single instant).
-/

namespace GlobusThrottled

/-- `TOKEN_BUCKET_FILL_RATE = 1`. -/
def TOKEN_BUCKET_FILL_RATE : ℤ := 1

/-- `TOKEN_BUCKET_MAX = 10`. -/
def TOKEN_BUCKET_MAX : ℤ := 10

/-- `TOKEN_BUCKET_START = TOKEN_BUCKET_MAX`. -/
def TOKEN_BUCKET_START : ℤ := TOKEN_BUCKET_MAX

/-- A JSON value as far as `isinstance(x, int)` can distinguish it:
an integer, or anything else (string, float, …). -/
inductive JVal where
  | jint (n : ℤ)
  | jother
deriving DecidableEq

/-- `isinstance(v, int)`. -/
def JVal.isInt : JVal → Bool
  | .jint _ => true
  | .jother => false

/-- `v` if it is an integer, else the fallback (only used on paths where
validation has already guaranteed `v` is an integer). -/
def JVal.toInt (d : ℤ) : JVal → ℤ
  | .jint n => n
  | .jother => d

/-- The optional `throttle_params` object of a request: any subset of the
three fields may be present. -/
structure ThrottleParams where
  fill_rate : Option JVal
  bucket_max : Option JVal
  bucket_start : Option JVal
deriving DecidableEq

/-- `params.get(name, default)` for one field. -/
def fieldOrInt (o : Option JVal) (d : ℤ) : ℤ :=
  match o with
  | some v => v.toInt d
  | none => d

/-- `params.get(name, 0)` as used by validation: the raw JSON value, with the
integer `0` standing in for an absent field. -/
def fieldOrZero (o : Option JVal) : JVal :=
  match o with
  | some v => v
  | none => .jint 0

/-- An input event (the decoded JSON request body), restricted to the fields
the throttler reads. -/
structure Event where
  requester_id : Option String
  resource_id : Option String
  throttle_params : Option ThrottleParams
deriving DecidableEq

/-- The empty `throttle_params` object (`event.get('throttle_params', {})`
when the key is absent). -/
def emptyTP : ThrottleParams := ⟨none, none, none⟩

/-- The `evaluated_params` dict: integer values only, after defaulting. -/
structure Params where
  fill_rate : ℤ
  bucket_max : ℤ
  bucket_start : ℤ
deriving DecidableEq

/-- One bucket item: `{'last_access': …, 'num_tokens': …, 'last_params': …}`. -/
structure Item where
  last_access : ℚ
  num_tokens : ℚ
  last_params : Params
deriving DecidableEq

/-- The two-level store `_resource_buckets`: resource id → requester id → item
(association lists standing in for Python dicts with unique keys). -/
abbrev Store := List (String × List (String × Item))

/-- `tornado.web.HTTPError(status_code, reason=reason)`. -/
structure HTTPError where
  status : ℕ
  reason : String
deriving DecidableEq

/-- The data dict returned by `handle_event`. -/
structure Decision where
  allow_request : Bool
  denial_details : Option String
deriving DecidableEq

/-! ### Association-list primitives (Python dict operations) -/

/-- `d[k]` as an `Option` (`d.get(k)`). -/
def getKey? {β : Type} (k : String) : List (String × β) → Option β
  | [] => none
  | (k', v) :: rest => if k' = k then some v else getKey? k rest

/-- `d[k] = v`: replace the first binding of `k`, or append a new one. -/
def setKey {β : Type} (k : String) (v : β) : List (String × β) → List (String × β)
  | [] => [(k, v)]
  | (k', v') :: rest => if k' = k then (k, v) :: rest else (k', v') :: setKey k v rest

/-- `d.pop(k, None)`: drop every binding of `k` (dict keys are unique, so this
agrees with removing the one binding). -/
def delKey {β : Type} (k : String) (l : List (String × β)) : List (String × β) :=
  l.filter (fun kv => kv.1 ≠ k)

/-- Lookup through both levels: `_resource_buckets[rid][qid]`. -/
def getItem? (s : Store) (rid qid : String) : Option Item :=
  (getKey? rid s).bind (getKey? qid)

/-- Write an item through both levels, creating the resource group if absent. -/
def setItem (s : Store) (rid qid : String) (it : Item) : Store :=
  setKey rid (setKey qid it ((getKey? rid s).getD [])) s

/-! ### The throttler core -/

/-- `Throttler._get_item`, as the item it returns: the existing item if
present, else the freshly initialised one (which `_consume_token` writes back
through `setItem`). -/
def get_item (s : Store) (resource_id requester_id : String) (now : ℚ)
    (params : Params) : Item :=
  match getItem? s resource_id requester_id with
  | some item => item
  | none =>
    { last_access := now
      num_tokens := (params.bucket_start : ℚ)
      last_params := params }

/-- `Throttler._update_item`: refill by elapsed time, clamped at the bucket
max; stamp the access time and the params used. -/
def update_item (item : Item) (now : ℚ) (params : Params) : Item :=
  let delta : ℚ := max 0 ((params.fill_rate : ℚ) * (now - item.last_access))
  { num_tokens := min (params.bucket_max : ℚ) (item.num_tokens + delta)
    last_access := now
    last_params := params }

/-- `Throttler._consume_token`: get-or-create, refill, then try to spend one
token.  Returns the decision flag and the store after the mutations. -/
def consume_token (s : Store) (resource_id requester_id : String) (now : ℚ)
    (params : Params) : Bool × Store :=
  let item := update_item (get_item s resource_id requester_id now params) now params
  let new_val := item.num_tokens - 1
  if new_val < 0 then
    (false, setItem s resource_id requester_id item)
  else
    (true, setItem s resource_id requester_id { item with num_tokens := new_val })

/-- `Throttler._validate_request`. -/
def validate_request (event : Event) : Except HTTPError Unit :=
  if event.requester_id = none then
    .error ⟨400, "requester_id is required"⟩
  else if event.resource_id = none then
    .error ⟨400, "resource_id is required"⟩
  else
    let params := event.throttle_params.getD emptyTP
    if ¬ (fieldOrZero params.fill_rate).isInt then
      .error ⟨400, "throttle_params.fill_rate must be an int"⟩
    else if ¬ (fieldOrZero params.bucket_max).isInt then
      .error ⟨400, "throttle_params.bucket_max must be an int"⟩
    else if ¬ (fieldOrZero params.bucket_start).isInt then
      .error ⟨400, "throttle_params.bucket_start must be an int"⟩
    else
      .ok ()

/-- The `evaluated_params` computation of `handle_event`: each supplied field
overrides its default independently. -/
def resolvedParams (event : Event) : Params :=
  let tp := event.throttle_params.getD emptyTP
  { fill_rate := fieldOrInt tp.fill_rate TOKEN_BUCKET_FILL_RATE
    bucket_max := fieldOrInt tp.bucket_max TOKEN_BUCKET_MAX
    bucket_start := fieldOrInt tp.bucket_start TOKEN_BUCKET_START }

/-- `Throttler.handle_event`.  Note the source passes `(requester_id,
resource_id)` positionally into `_consume_token(self, resource_id,
requester_id, …)`, so the outer store key is the requester id; we reproduce
that argument order exactly.  The `getD ""` extractions are only reached when
validation has confirmed both fields are present. -/
def handle_event (s : Store) (event : Event) (now : ℚ) :
    Except HTTPError (Decision × Store) :=
  match validate_request event with
  | .error e => .error e
  | .ok _ =>
    let requester_id := event.requester_id.getD ""
    let resource_id := event.resource_id.getD ""
    let evaluated_params := resolvedParams event
    let r := consume_token s requester_id resource_id now evaluated_params
    if r.1 then
      .ok ({ allow_request := true, denial_details := none }, r.2)
    else
      .ok ({ allow_request := false, denial_details := some "No detail today!" }, r.2)

/-! ### Cleanup (mark and sweep) -/

/-- The MARK phase's mutation: refill every item to `now` with its own
`last_params`. -/
def markPhase (s : Store) (now : ℚ) : Store :=
  s.map (fun rc => (rc.1, rc.2.map (fun qi => (qi.1, update_item qi.2 now qi.2.last_params))))

/-- The MARK phase's marked set: every (resource, requester) whose refilled
item satisfies `num_tokens >= last_params['bucket_max']`, in store order. -/
def markedOf (s : Store) : List (String × String) :=
  s.flatMap (fun rc =>
    (rc.2.filter (fun qi => (qi.2.last_params.bucket_max : ℚ) ≤ qi.2.num_tokens)).map
      (fun qi => (rc.1, qi.1)))

/-- One SWEEP step: `pop` the requester from its resource group and prune the
group if it became empty.  (The source indexes
`self._resource_buckets[resource_id]` directly; the group is always present
there, and the `none` branch makes the model total.) -/
def sweepOne (s : Store) (rid qid : String) : Store :=
  match getKey? rid s with
  | none => s
  | some coll =>
    let coll' := delKey qid coll
    if coll' = [] then delKey rid s else setKey rid coll' s

/-- `Throttler.cleanup`: empty-store fast path, then mark, then sweep. -/
def cleanup (s : Store) (now : ℚ) : Store :=
  if s = [] then s
  else
    let s₁ := markPhase s now
    (markedOf s₁).foldl (fun acc p => sweepOne acc p.1 p.2) s₁

/-! ### Operation sequences -/

/-- One externally visible operation on a throttler. -/
inductive Op where
  | event (e : Event) (now : ℚ)
  | sweep (now : ℚ)
deriving DecidableEq

/-- Apply one operation to the store.  A `handle_event` that raises leaves the
store untouched (the exception propagates before any store access). -/
def applyOp (s : Store) : Op → Store
  | .event e now =>
    match handle_event s e now with
    | .ok r => r.2
    | .error _ => s
  | .sweep now => cleanup s now

/-- Run a sequence of operations from the initial empty store. -/
def run (ops : List Op) : Store := ops.foldl applyOp []

/-- Consecutive `handle_event` calls for one event at the given instants;
returns the `allow_request` flags. -/
def runTimed (e : Event) : List ℚ → Store → List Bool
  | [], _ => []
  | t :: ts, s =>
    match handle_event s e t with
    | .ok r => r.1.allow_request :: runTimed e ts r.2
    | .error _ => []

/-- A minimal valid event carrying no `throttle_params`. -/
def defaultEvent : Event :=
  { requester_id := some "r", resource_id := some "a", throttle_params := none }

/-! ### Predicates used by the claims -/

/-- The requester id `handle_event` extracts (validation guarantees presence). -/
def eReq (e : Event) : String := e.requester_id.getD ""

/-- The resource id `handle_event` extracts (validation guarantees presence). -/
def eRes (e : Event) : String := e.resource_id.getD ""

/-- The entry for the event's pair after the get-or-create and refill steps of
`handle_event`, before the consume decision. -/
def refilledItem (s : Store) (e : Event) (now : ℚ) : Item :=
  update_item (get_item s (eReq e) (eRes e) now (resolvedParams e)) now (resolvedParams e)

/-- The conditions under which `_validate_request` raises: a required id is
missing, or a supplied throttle-params field is not an integer. -/
def ValidationFails (e : Event) : Prop :=
  e.requester_id = none ∨ e.resource_id = none ∨
    (fieldOrZero (e.throttle_params.getD emptyTP).fill_rate).isInt = false ∨
    (fieldOrZero (e.throttle_params.getD emptyTP).bucket_max).isInt = false ∨
    (fieldOrZero (e.throttle_params.getD emptyTP).bucket_start).isInt = false

instance : DecidablePred ValidationFails := fun _ => by unfold ValidationFails; infer_instance

/-- All three bucket parameters are non-negative (the spec's precondition on
`throttle_params`). -/
def NonnegParams (p : Params) : Prop :=
  0 ≤ p.fill_rate ∧ 0 ≤ p.bucket_max ∧ 0 ≤ p.bucket_start

instance : DecidablePred NonnegParams := fun _ => by unfold NonnegParams; infer_instance

/-- An operation whose effective parameters (after defaulting) are
non-negative; trivially true of a cleanup pass. -/
def opNonneg : Op → Prop
  | .event e _ => NonnegParams (resolvedParams e)
  | .sweep _ => True

instance : DecidablePred opNonneg := fun op =>
  match op with
  | .event e _ => inferInstanceAs (Decidable (NonnegParams (resolvedParams e)))
  | .sweep _ => inferInstanceAs (Decidable True)

/-- Every item reachable in the store satisfies `P`. -/
def AllItems (P : Item → Prop) (s : Store) : Prop :=
  ∀ rid qid it, getItem? s rid qid = some it → P it

/-- The capacity invariant of one entry:
`0 <= numTokens <= lastParams.bucketMax`. -/
def WithinCapacity (it : Item) : Prop :=
  0 ≤ it.num_tokens ∧ it.num_tokens ≤ (it.last_params.bucket_max : ℚ)

/-- Strengthened per-entry invariant carried through the induction: within
capacity, with non-negative stored parameters. -/
def GoodItem (it : Item) : Prop :=
  WithinCapacity it ∧ NonnegParams it.last_params

/-- Dict keys are unique, at both levels of the store. -/
def NodupStore (s : Store) : Prop :=
  (s.map Prod.fst).Nodup ∧ ∀ rc ∈ s, (rc.2.map Prod.fst).Nodup

/-- No resource group in the store is an empty map. -/
def NoEmptyGroups (s : Store) : Prop :=
  ∀ rid coll, getKey? rid s = some coll → coll ≠ []

/-! ### Concrete fixtures for witnesses and counterexamples -/

/-- The default parameters as an `evaluated_params` record. -/
def pDef : Params := ⟨1, 10, 10⟩

/-- A single-entry store for requester "r", resource "a", with the default
parameters recorded. -/
def stq (la n : ℚ) : Store := [("r", [("a", ⟨la, n, pDef⟩)])]

/-- An event supplying `bucket_start = -1` (an integer, so it passes
validation). -/
def eNegStart : Event :=
  ⟨some "r", some "a", some ⟨none, none, some (.jint (-1))⟩⟩

/-- An event supplying `fill_rate = -5` (an integer, so it passes
validation). -/
def eNegFill : Event :=
  ⟨some "r", some "a", some ⟨some (.jint (-5)), none, none⟩⟩

/-- A small mixed operation sequence (two admissions around a cleanup). -/
def opsW : List Op := [Op.event defaultEvent 0, Op.sweep 5, Op.event defaultEvent 6]

/-- A store holding one full bucket ("a") and one partly drained bucket
("b") under the same outer key. -/
def sFix : Store := [("r", [("a", ⟨0, 10, pDef⟩), ("b", ⟨0, 3, pDef⟩)])]

/-! ## Lemmas -/

theorem getKey?_setKey {β : Type} (k q : String) (v : β) (l : List (String × β)) :
    getKey? q (setKey k v l) = if q = k then some v else getKey? q l := by
  induction l with
  | nil => simp [setKey, getKey?, eq_comm]
  | cons hd tl ih =>
    obtain ⟨k₁, v₁⟩ := hd
    by_cases h₁ : k₁ = k
    · subst h₁
      by_cases h₂ : k₁ = q
      · subst h₂; simp [setKey, getKey?]
      · simp [setKey, getKey?, h₂, Ne.symm h₂]
    · by_cases h₂ : q = k
      · subst h₂
        simp [setKey, getKey?, h₁, Ne.symm h₁, ih]
      · simp [setKey, getKey?, h₁, h₂, ih]

theorem delKey_cons {β : Type} (k k₁ : String) (v₁ : β) (tl : List (String × β)) :
    delKey k ((k₁, v₁) :: tl) = if k₁ = k then delKey k tl else (k₁, v₁) :: delKey k tl := by
  by_cases h : k₁ = k <;> simp [delKey, h]

theorem getKey?_delKey {β : Type} (k q : String) (l : List (String × β)) :
    getKey? q (delKey k l) = if q = k then none else getKey? q l := by
  induction l with
  | nil => simp [delKey, getKey?]
  | cons hd tl ih =>
    obtain ⟨k₁, v₁⟩ := hd
    rw [delKey_cons]
    by_cases h₁ : k₁ = k
    · by_cases h₂ : q = k
      · subst h₂; simp [h₁, ih]
      · have hne : k ≠ q := fun hh => h₂ hh.symm
        simp [getKey?, ih, h₁, h₂, hne]
    · by_cases h₂ : k₁ = q
      · have hqk : ¬ q = k := fun hh => h₁ (h₂.trans hh)
        simp [getKey?, h₁, h₂, hqk]
      · simp [getKey?, h₁, h₂, ih]

theorem setKey_ne_nil {β : Type} (k : String) (v : β) (l : List (String × β)) :
    setKey k v l ≠ [] := by
  cases l with
  | nil => simp [setKey]
  | cons hd tl =>
    obtain ⟨k₁, v₁⟩ := hd
    by_cases h : k₁ = k <;> simp [setKey, h]

theorem getItem?_setItem (s : Store) (rid qid : String) (it : Item) (rid' qid' : String) :
    getItem? (setItem s rid qid it) rid' qid' =
      if rid' = rid ∧ qid' = qid then some it else getItem? s rid' qid' := by
  unfold getItem? setItem
  by_cases h₁ : rid' = rid
  · subst h₁
    cases hg : getKey? rid' s with
    | none =>
      by_cases h₂ : qid' = qid
      · simp [getKey?_setKey, hg, h₂, getKey?, setKey]
      · simp [getKey?_setKey, hg, h₂, Ne.symm h₂, getKey?, setKey]
    | some coll =>
      by_cases h₂ : qid' = qid <;>
        simp [getKey?_setKey, hg, h₂]
  · simp [getKey?_setKey, h₁]

theorem getKey?_mapVal {β γ : Type} (g : β → γ) (q : String) (l : List (String × β)) :
    getKey? q (l.map (fun kv => (kv.1, g kv.2))) = (getKey? q l).map g := by
  induction l with
  | nil => simp [getKey?]
  | cons hd tl ih =>
    obtain ⟨k₁, v₁⟩ := hd
    by_cases h : k₁ = q <;> simp [getKey?, h, ih]

theorem getKey?_markPhase (s : Store) (now : ℚ) (rid : String) :
    getKey? rid (markPhase s now) =
      (getKey? rid s).map
        (fun coll => coll.map (fun qi => (qi.1, update_item qi.2 now qi.2.last_params))) := by
  induction s with
  | nil => simp [markPhase, getKey?]
  | cons hd tl ih =>
    obtain ⟨k₁, coll₁⟩ := hd
    by_cases h : k₁ = rid
    · simp [markPhase, getKey?, h]
    · simpa [markPhase, getKey?, h] using ih

theorem getKey?_mapUpd (now : ℚ) (q : String) (l : List (String × Item)) :
    getKey? q (l.map (fun qi => (qi.1, update_item qi.2 now qi.2.last_params))) =
      (getKey? q l).map (fun it => update_item it now it.last_params) := by
  induction l with
  | nil => simp [getKey?]
  | cons hd tl ih =>
    obtain ⟨k₁, v₁⟩ := hd
    by_cases h : k₁ = q <;> simp [getKey?, h, ih]

theorem getItem?_markPhase (s : Store) (now : ℚ) (rid qid : String) :
    getItem? (markPhase s now) rid qid =
      (getItem? s rid qid).map (fun it => update_item it now it.last_params) := by
  unfold getItem?
  rw [getKey?_markPhase]
  cases hg : getKey? rid s with
  | none => simp
  | some coll => simp [getKey?_mapUpd]

theorem delKey_nil_lookup {β : Type} (k q : String) (l : List (String × β))
    (h : delKey k l = []) (hq : q ≠ k) : getKey? q l = none := by
  induction l with
  | nil => simp [getKey?]
  | cons hd tl ih =>
    obtain ⟨k₁, v₁⟩ := hd
    rw [delKey_cons] at h
    by_cases h₁ : k₁ = k
    · rw [if_pos h₁] at h
      have : k₁ ≠ q := by rw [h₁]; exact fun hh => hq hh.symm
      simp [getKey?, this, ih h]
    · rw [if_neg h₁] at h
      exact absurd h (by simp)

theorem getItem?_sweepOne (s : Store) (rid qid rid' qid' : String) :
    getItem? (sweepOne s rid qid) rid' qid' =
      if rid' = rid ∧ qid' = qid then none else getItem? s rid' qid' := by
  cases hg : getKey? rid s with
  | none =>
    simp only [sweepOne, hg]
    by_cases h₁ : rid' = rid
    · subst h₁
      by_cases h₂ : qid' = qid
      · subst h₂; simp [getItem?, hg]
      · simp [h₂]
    · simp [h₁]
  | some coll =>
    simp only [sweepOne, hg]
    by_cases hc : delKey qid coll = []
    · rw [if_pos hc]
      unfold getItem?
      rw [getKey?_delKey]
      by_cases h₁ : rid' = rid
      · subst h₁
        rw [if_pos rfl]
        by_cases h₂ : qid' = qid
        · simp [h₂]
        · simp [h₂, hg, delKey_nil_lookup qid qid' coll hc h₂]
      · simp [h₁]
    · rw [if_neg hc]
      unfold getItem?
      rw [getKey?_setKey]
      by_cases h₁ : rid' = rid
      · subst h₁
        rw [if_pos rfl]
        by_cases h₂ : qid' = qid
        · simp [h₂, getKey?_delKey]
        · simp [h₂, hg, getKey?_delKey]
      · simp [h₁]

theorem getItem?_sweepFold (L : List (String × String)) (s : Store) (rid qid : String) :
    getItem? (L.foldl (fun acc p => sweepOne acc p.1 p.2) s) rid qid =
      if (rid, qid) ∈ L then none else getItem? s rid qid := by
  induction L generalizing s with
  | nil => simp
  | cons hd tl ih =>
    obtain ⟨a, b⟩ := hd
    rw [List.foldl_cons, ih, getItem?_sweepOne]
    by_cases h₁ : (rid, qid) ∈ tl
    · simp [h₁]
    · by_cases h₂ : rid = a ∧ qid = b
      · simp [h₁, h₂]
      · have hne : ¬ ((rid, qid) = (a, b) ∨ (rid, qid) ∈ tl) := by
          rintro (he | hm)
          · exact h₂ ⟨congrArg Prod.fst he, congrArg Prod.snd he⟩
          · exact h₁ hm
        simp [h₂, List.mem_cons, hne]

theorem getKey?_eq_some_iff {β : Type} {l : List (String × β)}
    (hnd : (l.map Prod.fst).Nodup) (k : String) (v : β) :
    getKey? k l = some v ↔ (k, v) ∈ l := by
  induction l with
  | nil => simp [getKey?]
  | cons hd tl ih =>
    obtain ⟨k₁, v₁⟩ := hd
    simp only [List.map_cons, List.nodup_cons] at hnd
    obtain ⟨hk₁, hnd'⟩ := hnd
    by_cases h : k₁ = k
    · subst h
      simp only [getKey?, if_pos rfl, List.mem_cons]
      constructor
      · rintro hv
        exact Or.inl (by simpa [eq_comm] using hv)
      · rintro (hv | hm)
        · have hv' : v = v₁ := by simpa using congrArg Prod.snd hv
          simp [hv']
        · exact absurd (List.mem_map.mpr ⟨(k₁, v), hm, rfl⟩) hk₁
    · simp only [getKey?, if_neg h, List.mem_cons, ih hnd']
      constructor
      · exact fun hm => Or.inr hm
      · rintro (hv | hm)
        · exact absurd (congrArg Prod.fst hv).symm h
        · exact hm

theorem nodupStore_markPhase {s : Store} (now : ℚ) (hnd : NodupStore s) :
    NodupStore (markPhase s now) := by
  obtain ⟨h₁, h₂⟩ := hnd
  constructor
  · simpa [markPhase, List.map_map, Function.comp] using h₁
  · intro rc hrc
    rw [markPhase, List.mem_map] at hrc
    obtain ⟨rc₀, hrc₀, heq⟩ := hrc
    subst heq
    simpa [List.map_map, Function.comp] using h₂ rc₀ hrc₀

theorem mem_markedOf {s : Store} (hnd : NodupStore s) (rid qid : String) :
    (rid, qid) ∈ markedOf s ↔
      ∃ it, getItem? s rid qid = some it ∧
        (it.last_params.bucket_max : ℚ) ≤ it.num_tokens := by
  unfold markedOf getItem?
  constructor
  · intro h
    rw [List.mem_flatMap] at h
    obtain ⟨rc, hrc, hmem⟩ := h
    rw [List.mem_map] at hmem
    obtain ⟨qi, hqi, heq⟩ := hmem
    rw [List.mem_filter] at hqi
    obtain ⟨hqi_mem, hcond⟩ := hqi
    have hr : rc.1 = rid := congrArg Prod.fst heq
    have hq : qi.1 = qid := congrArg Prod.snd heq
    have h1 : getKey? rid s = some rc.2 :=
      (getKey?_eq_some_iff hnd.1 rid rc.2).mpr (by rw [← hr]; exact hrc)
    have h2 : getKey? qid rc.2 = some qi.2 :=
      (getKey?_eq_some_iff (hnd.2 rc hrc) qid qi.2).mpr (by rw [← hq]; exact hqi_mem)
    refine ⟨qi.2, ?_, by exact_mod_cast of_decide_eq_true hcond⟩
    rw [h1]
    exact h2
  · rintro ⟨it, hit, hcond⟩
    cases hg : getKey? rid s with
    | none => rw [hg] at hit; simp at hit
    | some coll =>
      rw [hg] at hit
      have hit' : getKey? qid coll = some it := hit
      have hm₁ : (rid, coll) ∈ s := (getKey?_eq_some_iff hnd.1 rid coll).mp hg
      have hm₂ : (qid, it) ∈ coll :=
        (getKey?_eq_some_iff (hnd.2 (rid, coll) hm₁) qid it).mp hit'
      rw [List.mem_flatMap]
      refine ⟨(rid, coll), hm₁, ?_⟩
      rw [List.mem_map]
      refine ⟨(qid, it), ?_, rfl⟩
      rw [List.mem_filter]
      exact ⟨hm₂, decide_eq_true hcond⟩

theorem getItem?_cleanup (s : Store) (now : ℚ) (hnd : NodupStore s) (rid qid : String) :
    getItem? (cleanup s now) rid qid =
      match getItem? s rid qid with
      | none => none
      | some it =>
        let it' := update_item it now it.last_params
        if (it'.last_params.bucket_max : ℚ) ≤ it'.num_tokens then none else some it' := by
  unfold cleanup
  by_cases hs : s = []
  · subst hs
    simp [getItem?, getKey?]
  · rw [if_neg hs, getItem?_sweepFold]
    have hmm := mem_markedOf (nodupStore_markPhase now hnd) rid qid
    rw [getItem?_markPhase] at hmm ⊢
    cases hit : getItem? s rid qid with
    | none =>
      rw [hit] at hmm
      have hnm : ¬ (rid, qid) ∈ markedOf (markPhase s now) := by
        rw [hmm]; rintro ⟨it, hit', _⟩; simp at hit'
      simp [hnm]
    | some it =>
      rw [hit] at hmm
      simp only [Option.map_some'] at hmm ⊢
      by_cases hcond :
          ((update_item it now it.last_params).last_params.bucket_max : ℚ) ≤
            (update_item it now it.last_params).num_tokens
      · have hmem : (rid, qid) ∈ markedOf (markPhase s now) :=
          hmm.mpr ⟨update_item it now it.last_params, rfl, hcond⟩
        simp [hmem, hcond]
      · have hmem : ¬ (rid, qid) ∈ markedOf (markPhase s now) := by
          rw [hmm]
          rintro ⟨it', hit', hcond'⟩
          have he : it' = update_item it now it.last_params := by
            simpa [eq_comm] using hit'
          subst he
          exact hcond hcond'
        simp [hmem, hcond]

/- When `handle_event` succeeds it writes exactly one item, at the slot named
   by the event, and the decision matches the consume branch taken. -/
theorem handle_event_ok_shape (s : Store) (e : Event) (now : ℚ) (d : Decision) (s' : Store)
    (h : handle_event s e now = .ok (d, s')) :
    validate_request e = .ok () ∧
      ((d = ⟨false, some "No detail today!"⟩ ∧
          s' = setItem s (eReq e) (eRes e) (refilledItem s e now) ∧
          (refilledItem s e now).num_tokens - 1 < 0) ∨
       (d = ⟨true, none⟩ ∧
          s' = setItem s (eReq e) (eRes e)
            { refilledItem s e now with
                num_tokens := (refilledItem s e now).num_tokens - 1 } ∧
          ¬ (refilledItem s e now).num_tokens - 1 < 0)) := by
  unfold handle_event at h
  cases hv : validate_request e with
  | error err => rw [hv] at h; exact absurd h (by simp)
  | ok u =>
    rw [hv] at h
    dsimp only [] at h
    refine ⟨by cases u; rfl, ?_⟩
    by_cases hc : (refilledItem s e now).num_tokens - 1 < 0
    · left
      have hct : consume_token s (e.requester_id.getD "") (e.resource_id.getD "") now
            (resolvedParams e) =
          (false, setItem s (e.requester_id.getD "") (e.resource_id.getD "")
            (refilledItem s e now)) := by
        show (if (refilledItem s e now).num_tokens - 1 < 0
              then (false, setItem s (e.requester_id.getD "") (e.resource_id.getD "")
                (refilledItem s e now))
              else (true, setItem s (e.requester_id.getD "") (e.resource_id.getD "")
                { refilledItem s e now with
                    num_tokens := (refilledItem s e now).num_tokens - 1 })) =
            (false, setItem s (e.requester_id.getD "") (e.resource_id.getD "")
              (refilledItem s e now))
        rw [if_pos hc]
      rw [hct] at h
      have h₂ : (Except.ok
          (({ allow_request := false, denial_details := some "No detail today!" } : Decision),
            setItem s (e.requester_id.getD "") (e.resource_id.getD "") (refilledItem s e now)) :
          Except HTTPError (Decision × Store)) = Except.ok (d, s') := h
      rw [Except.ok.injEq, Prod.mk.injEq] at h₂
      exact ⟨h₂.1.symm, h₂.2.symm, hc⟩
    · right
      have hct : consume_token s (e.requester_id.getD "") (e.resource_id.getD "") now
            (resolvedParams e) =
          (true, setItem s (e.requester_id.getD "") (e.resource_id.getD "")
            { refilledItem s e now with
                num_tokens := (refilledItem s e now).num_tokens - 1 }) := by
        show (if (refilledItem s e now).num_tokens - 1 < 0
              then (false, setItem s (e.requester_id.getD "") (e.resource_id.getD "")
                (refilledItem s e now))
              else (true, setItem s (e.requester_id.getD "") (e.resource_id.getD "")
                { refilledItem s e now with
                    num_tokens := (refilledItem s e now).num_tokens - 1 })) =
            (true, setItem s (e.requester_id.getD "") (e.resource_id.getD "")
              { refilledItem s e now with
                  num_tokens := (refilledItem s e now).num_tokens - 1 })
        rw [if_neg hc]
      rw [hct] at h
      have h₂ : (Except.ok
          (({ allow_request := true, denial_details := none } : Decision),
            setItem s (e.requester_id.getD "") (e.resource_id.getD "")
              { refilledItem s e now with
                  num_tokens := (refilledItem s e now).num_tokens - 1 }) :
          Except HTTPError (Decision × Store)) = Except.ok (d, s') := h
      rw [Except.ok.injEq, Prod.mk.injEq] at h₂
      exact ⟨h₂.1.symm, h₂.2.symm, hc⟩



theorem update_item_good (it : Item) (now : ℚ) (p : Params)
    (h0 : 0 ≤ it.num_tokens) (hp : NonnegParams p) : GoodItem (update_item it now p) := by
  refine ⟨⟨?_, ?_⟩, ?_⟩
  · show 0 ≤ min (p.bucket_max : ℚ) (it.num_tokens + max 0 ((p.fill_rate : ℚ) * (now - it.last_access)))
    apply le_min
    · exact_mod_cast hp.2.1
    · exact add_nonneg h0 (le_max_left 0 _)
  · show min (p.bucket_max : ℚ) _ ≤ ((p : Params).bucket_max : ℚ)
    exact min_le_left _ _
  · exact hp

theorem allItems_empty (P : Item → Prop) : AllItems P [] := by
  intro rid qid it hit
  simp [getItem?, getKey?] at hit

theorem refilledItem_good (s : Store) (e : Event) (now : ℚ)
    (hs : AllItems GoodItem s) (hp : NonnegParams (resolvedParams e)) :
    GoodItem (refilledItem s e now) := by
  apply update_item_good _ _ _ _ hp
  unfold get_item
  cases hg : getItem? s (eReq e) (eRes e) with
  | some it => exact (hs _ _ it hg).1.1
  | none =>
    show (0 : ℚ) ≤ ((resolvedParams e).bucket_start : ℚ)
    exact_mod_cast hp.2.2

theorem allItems_applyOp_event (s : Store) (e : Event) (now : ℚ)
    (hs : AllItems GoodItem s) (hp : NonnegParams (resolvedParams e)) :
    AllItems GoodItem (applyOp s (.event e now)) := by
  show AllItems GoodItem (match handle_event s e now with
    | .ok r => r.2
    | .error _ => s)
  cases hev : handle_event s e now with
  | error err => exact hs
  | ok r =>
    obtain ⟨d, s'⟩ := r
    obtain ⟨hval, hcase⟩ := handle_event_ok_shape s e now d s' hev
    have hgood := refilledItem_good s e now hs hp
    rcases hcase with ⟨hd, hs', hc⟩ | ⟨hd, hs', hc⟩
    · subst hs'
      intro rid qid it hit
      rw [getItem?_setItem] at hit
      by_cases hkey : rid = eReq e ∧ qid = eRes e
      · rw [if_pos hkey] at hit
        cases hit
        exact hgood
      · rw [if_neg hkey] at hit
        exact hs _ _ _ hit
    · subst hs'
      intro rid qid it hit
      rw [getItem?_setItem] at hit
      by_cases hkey : rid = eReq e ∧ qid = eRes e
      · rw [if_pos hkey] at hit
        cases hit
        refine ⟨⟨not_lt.mp hc, ?_⟩, hgood.2⟩
        show (refilledItem s e now).num_tokens - 1 ≤ ((refilledItem s e now).last_params.bucket_max : ℚ)
        have h1 : (refilledItem s e now).num_tokens - 1 ≤ (refilledItem s e now).num_tokens := by
          linarith
        exact le_trans h1 hgood.1.2
      · rw [if_neg hkey] at hit
        exact hs _ _ _ hit

theorem allItems_cleanup (s : Store) (now : ℚ) (hs : AllItems GoodItem s) :
    AllItems GoodItem (cleanup s now) := by
  intro rid qid it hit
  unfold cleanup at hit
  by_cases hemp : s = []
  · rw [if_pos hemp] at hit
    subst hemp
    simp [getItem?, getKey?] at hit
  · rw [if_neg hemp, getItem?_sweepFold] at hit
    by_cases hm : (rid, qid) ∈ markedOf (markPhase s now)
    · rw [if_pos hm] at hit; cases hit
    · rw [if_neg hm, getItem?_markPhase] at hit
      cases hg : getItem? s rid qid with
      | none => rw [hg] at hit; simp at hit
      | some it₀ =>
        rw [hg] at hit
        simp only [Option.map_some', Option.some.injEq] at hit
        have hgood := hs rid qid it₀ hg
        rw [← hit]
        exact update_item_good it₀ now it₀.last_params hgood.1.1 hgood.2

theorem allItems_run_aux (ops : List Op) (s : Store)
    (h : ∀ op ∈ ops, opNonneg op) (hs : AllItems GoodItem s) :
    AllItems GoodItem (ops.foldl applyOp s) := by
  induction ops generalizing s with
  | nil => exact hs
  | cons op tl ih =>
    rw [List.foldl_cons]
    have htl : ∀ op' ∈ tl, opNonneg op' := fun op' hop' => h op' (List.mem_cons_of_mem _ hop')
    apply ih _ htl
    cases op with
    | event e now => exact allItems_applyOp_event s e now hs (h _ (List.mem_cons_self _ _))
    | sweep now => exact allItems_cleanup s now hs

theorem noEmpty_nil : NoEmptyGroups [] := by
  intro rid coll hcoll
  simp [getKey?] at hcoll

theorem noEmpty_setItem (s : Store) (rid qid : String) (it : Item)
    (h : NoEmptyGroups s) : NoEmptyGroups (setItem s rid qid it) := by
  intro rid' coll hcoll
  unfold setItem at hcoll
  rw [getKey?_setKey] at hcoll
  by_cases hk : rid' = rid
  · rw [if_pos hk] at hcoll
    cases hcoll
    exact setKey_ne_nil _ _ _
  · rw [if_neg hk] at hcoll
    exact h _ _ hcoll

theorem noEmpty_markPhase (s : Store) (now : ℚ) (h : NoEmptyGroups s) :
    NoEmptyGroups (markPhase s now) := by
  intro rid coll hcoll
  rw [getKey?_markPhase] at hcoll
  cases hg : getKey? rid s with
  | none => rw [hg] at hcoll; simp at hcoll
  | some coll₀ =>
    rw [hg] at hcoll
    simp only [Option.map_some', Option.some.injEq] at hcoll
    intro hnil
    rw [← hcoll] at hnil
    exact h _ _ hg (List.map_eq_nil_iff.mp hnil)

theorem noEmpty_sweepOne (s : Store) (rid qid : String) (h : NoEmptyGroups s) :
    NoEmptyGroups (sweepOne s rid qid) := by
  intro rid' coll hcoll
  unfold sweepOne at hcoll
  cases hg : getKey? rid s with
  | none => rw [hg] at hcoll; exact h _ _ hcoll
  | some coll₀ =>
    rw [hg] at hcoll
    simp only at hcoll
    by_cases hc : delKey qid coll₀ = []
    · rw [if_pos hc] at hcoll
      rw [getKey?_delKey] at hcoll
      by_cases hk : rid' = rid
      · rw [if_pos hk] at hcoll; cases hcoll
      · rw [if_neg hk] at hcoll; exact h _ _ hcoll
    · rw [if_neg hc] at hcoll
      rw [getKey?_setKey] at hcoll
      by_cases hk : rid' = rid
      · rw [if_pos hk] at hcoll
        cases hcoll
        exact hc
      · rw [if_neg hk] at hcoll
        exact h _ _ hcoll

theorem noEmpty_sweepFold (L : List (String × String)) (s : Store)
    (h : NoEmptyGroups s) :
    NoEmptyGroups (L.foldl (fun acc p => sweepOne acc p.1 p.2) s) := by
  induction L generalizing s with
  | nil => exact h
  | cons hd tl ih =>
    rw [List.foldl_cons]
    exact ih _ (noEmpty_sweepOne _ _ _ h)

theorem noEmpty_cleanup (s : Store) (now : ℚ) (h : NoEmptyGroups s) :
    NoEmptyGroups (cleanup s now) := by
  unfold cleanup
  by_cases hemp : s = []
  · rw [if_pos hemp]; exact h
  · rw [if_neg hemp]
    exact noEmpty_sweepFold _ _ (noEmpty_markPhase s now h)

theorem noEmpty_applyOp (s : Store) (op : Op) (h : NoEmptyGroups s) :
    NoEmptyGroups (applyOp s op) := by
  cases op with
  | event e now =>
    show NoEmptyGroups (match handle_event s e now with
      | .ok r => r.2
      | .error _ => s)
    cases hev : handle_event s e now with
    | error err => exact h
    | ok r =>
      obtain ⟨d, s'⟩ := r
      obtain ⟨-, hcase⟩ := handle_event_ok_shape s e now d s' hev
      rcases hcase with ⟨-, hs', -⟩ | ⟨-, hs', -⟩ <;> rw [hs'] <;>
        exact noEmpty_setItem _ _ _ _ h
  | sweep now => exact noEmpty_cleanup s now h

theorem step_fresh (t : ℚ) :
    handle_event [] defaultEvent t = .ok (⟨true, none⟩, stq t 9) := by
  simp [handle_event, validate_request, defaultEvent, resolvedParams, emptyTP, fieldOrZero,
    fieldOrInt, JVal.isInt, consume_token, get_item, getItem?, getKey?, setItem, setKey,
    update_item, stq, pDef, TOKEN_BUCKET_FILL_RATE, TOKEN_BUCKET_MAX, TOKEN_BUCKET_START]
  norm_num

theorem step_allow (la n t : ℚ) (h : 1 ≤ min 10 (n + max 0 (t - la))) :
    handle_event (stq la n) defaultEvent t =
      .ok (⟨true, none⟩, stq t (min 10 (n + max 0 (t - la)) - 1)) := by
  have hc : ¬ (min (10:ℚ) (n + max 0 (t - la)) - 1 < 0) := by
    intro hlt
    linarith
  simp [handle_event, validate_request, defaultEvent, resolvedParams, emptyTP, fieldOrZero,
    fieldOrInt, JVal.isInt, consume_token, get_item, getItem?, getKey?, setItem, setKey,
    update_item, stq, pDef, TOKEN_BUCKET_FILL_RATE, TOKEN_BUCKET_MAX, TOKEN_BUCKET_START, hc]

theorem step_deny (la n t : ℚ) (h : min 10 (n + max 0 (t - la)) < 1) :
    handle_event (stq la n) defaultEvent t =
      .ok (⟨false, some "No detail today!"⟩, stq t (min 10 (n + max 0 (t - la)))) := by
  have hc : min (10:ℚ) (n + max 0 (t - la)) - 1 < 0 := by linarith
  simp [handle_event, validate_request, defaultEvent, resolvedParams, emptyTP, fieldOrZero,
    fieldOrInt, JVal.isInt, consume_token, get_item, getItem?, getKey?, setItem, setKey,
    update_item, stq, pDef, TOKEN_BUCKET_FILL_RATE, TOKEN_BUCKET_MAX, TOKEN_BUCKET_START, hc]

/-! ## Claim theorems -/

theorem validate_request_error (e : Event) (hf : ValidationFails e) :
    ∃ err, validate_request e = .error err ∧ err.status = 400 := by
  unfold validate_request
  by_cases h₁ : e.requester_id = none
  · rw [if_pos h₁]; exact ⟨_, rfl, rfl⟩
  · rw [if_neg h₁]
    by_cases h₂ : e.resource_id = none
    · rw [if_pos h₂]; exact ⟨_, rfl, rfl⟩
    · rw [if_neg h₂]
      by_cases h₃ : (fieldOrZero (e.throttle_params.getD emptyTP).fill_rate).isInt = false
      · simp only [h₃]
        exact ⟨⟨400, "throttle_params.fill_rate must be an int"⟩, by simp, rfl⟩
      · rw [Bool.not_eq_false] at h₃
        simp only [h₃]
        by_cases h₄ : (fieldOrZero (e.throttle_params.getD emptyTP).bucket_max).isInt = false
        · simp only [h₄]
          exact ⟨⟨400, "throttle_params.bucket_max must be an int"⟩, by simp, rfl⟩
        · rw [Bool.not_eq_false] at h₄
          simp only [h₄]
          by_cases h₅ :
              (fieldOrZero (e.throttle_params.getD emptyTP).bucket_start).isInt = false
          · simp only [h₅]
            exact ⟨⟨400, "throttle_params.bucket_start must be an int"⟩, by simp, rfl⟩
          · rw [Bool.not_eq_false] at h₅
            unfold ValidationFails at hf
            rcases hf with h | h | h | h | h
            · exact absurd h h₁
            · exact absurd h h₂
            · rw [h₃] at h; cases h
            · rw [h₄] at h; cases h
            · rw [h₅] at h; cases h

theorem validate_request_ok (e : Event) (hf : ¬ ValidationFails e) :
    validate_request e = .ok () := by
  unfold ValidationFails at hf
  push_neg at hf
  obtain ⟨h₁, h₂, h₃, h₄, h₅⟩ := hf
  simp only [ne_eq, Bool.not_eq_false] at h₃ h₄ h₅
  unfold validate_request
  rw [if_neg h₁, if_neg h₂]
  simp [h₃, h₄, h₅]



/-- C2 (counterexample): an event supplying the negative integer
`fill_rate = -5` is not rejected: `handle_event` succeeds (and even allows the
request), so a supplied negative-integer field is accepted, contradicting the
claim. -/
theorem validation_negative_int_cex :
    handle_event [] eNegFill 0 =
      .ok (⟨true, none⟩, [("r", [("a", ⟨0, 9, ⟨-5, 10, 10⟩⟩)])]) := by
  simp [handle_event, validate_request, eNegFill, resolvedParams, emptyTP, fieldOrZero,
    fieldOrInt, JVal.isInt, JVal.toInt, consume_token, get_item, getItem?, getKey?, setItem,
    setKey, update_item, TOKEN_BUCKET_FILL_RATE, TOKEN_BUCKET_MAX, TOKEN_BUCKET_START]
  norm_num

/-- C2 (amended): `handle_event` raises an HTTP 400 error, leaving the store
unchanged, exactly when `requester_id` or `resource_id` is missing or a
supplied `throttle_params` field is not an integer; sign is not checked. -/
theorem validation_characterization (s : Store) (e : Event) (now : ℚ) :
    ((∃ err, handle_event s e now = .error err ∧ err.status = 400) ↔ ValidationFails e) ∧
    (ValidationFails e → applyOp s (.event e now) = s) := by
  have hmain : ValidationFails e →
      ∃ err, handle_event s e now = .error err ∧ err.status = 400 := by
    intro hf
    obtain ⟨err, herr, hst⟩ := validate_request_error e hf
    exact ⟨err, by simp [handle_event, herr], hst⟩
  constructor
  · constructor
    · rintro ⟨err, herr, -⟩
      by_contra hnf
      have hok := validate_request_ok e hnf
      simp only [handle_event, hok] at herr
      split at herr <;> simp at herr
    · exact hmain
  · intro hf
    obtain ⟨err, herr, -⟩ := hmain hf
    simp only [applyOp, herr]

/-- C3 (counterexample): with a clock regression (`now = 5` against
`lastAccess = 10`) the update sets `lastAccess` to the earlier `now`, so
`lastAccess` strictly decreases, contradicting monotonicity. -/
theorem clock_regression_cex :
    (update_item ⟨10, 5, pDef⟩ 5 pDef).last_access < (Item.mk 10 5 pDef).last_access := by
  norm_num [update_item]

/-- C3 (amended): under a clock regression (`now < lastAccess`) with a
non-negative fill rate, the elapsed-time delta clamps to zero, the token count
of an entry within capacity is unchanged, and `lastAccess` is set to `now`
(hence it decreases rather than staying put). -/
theorem clock_regression_clamp (it : Item) (p : Params) (now : ℚ)
    (hfr : 0 ≤ p.fill_rate) (hla : now < it.last_access)
    (hcap : it.num_tokens ≤ (p.bucket_max : ℚ)) :
    (update_item it now p).num_tokens = it.num_tokens ∧
    (update_item it now p).last_access = now ∧
    (update_item it now p).last_params = p := by
  have hd : (p.fill_rate : ℚ) * (now - it.last_access) ≤ 0 :=
    mul_nonpos_iff.mpr (Or.inl ⟨by exact_mod_cast hfr, by linarith⟩)
  refine ⟨?_, rfl, rfl⟩
  show min (p.bucket_max : ℚ)
      (it.num_tokens + max 0 ((p.fill_rate : ℚ) * (now - it.last_access))) = it.num_tokens
  rw [max_eq_left hd, add_zero, min_eq_right hcap]

/-- C3 (witness): the amended statement at `lastAccess = 10`, `now = 5`,
five tokens, default parameters. -/
theorem clock_regression_clamp_witness :
    (0 ≤ pDef.fill_rate ∧ (5:ℚ) < (Item.mk 10 5 pDef).last_access ∧
      (Item.mk 10 5 pDef).num_tokens ≤ (pDef.bucket_max : ℚ)) ∧
    ((update_item ⟨10, 5, pDef⟩ 5 pDef).num_tokens = (Item.mk 10 5 pDef).num_tokens ∧
     (update_item ⟨10, 5, pDef⟩ 5 pDef).last_access = 5 ∧
     (update_item ⟨10, 5, pDef⟩ 5 pDef).last_params = pDef) :=
  ⟨⟨by norm_num [pDef], by norm_num, by norm_num [pDef]⟩,
    clock_regression_clamp ⟨10, 5, pDef⟩ pDef 5 (by norm_num [pDef]) (by norm_num)
      (by norm_num [pDef])⟩

/-- C8: the refill step is idempotent (re-refilling at the same instant with
the same parameters changes nothing), never decreases the tokens of an entry
within capacity, and is monotone in the refill instant for a non-negative
fill rate. -/
theorem refill_idempotent_monotone (it : Item) (p : Params) (now now₁ now₂ : ℚ)
    (hfr : 0 ≤ p.fill_rate) (hcap : it.num_tokens ≤ (p.bucket_max : ℚ))
    (h12 : now₁ ≤ now₂) :
    update_item (update_item it now p) now p = update_item it now p ∧
    it.num_tokens ≤ (update_item it now p).num_tokens ∧
    (update_item it now₁ p).num_tokens ≤ (update_item it now₂ p).num_tokens := by
  refine ⟨?_, ?_, ?_⟩
  · simp only [update_item, sub_self, mul_zero, max_self, add_zero, Item.mk.injEq,
      true_and, and_true]
    rw [← min_assoc, min_self]
  · simp only [update_item]
    exact le_min hcap (le_add_of_nonneg_right (le_max_left 0 _))
  · simp only [update_item]
    refine min_le_min le_rfl (add_le_add_left (max_le_max le_rfl ?_) _)
    have hfr' : (0:ℚ) ≤ (p.fill_rate : ℚ) := by exact_mod_cast hfr
    exact mul_le_mul_of_nonneg_left (by linarith) hfr'

/-- C8 (witness): the statement at a concrete entry and the default
parameters, refilled at instants 2, then compared at 1 and 3. -/
theorem refill_idempotent_monotone_witness :
    (0 ≤ pDef.fill_rate ∧ (Item.mk 0 5 pDef).num_tokens ≤ (pDef.bucket_max : ℚ) ∧
      (1:ℚ) ≤ 3) ∧
    (update_item (update_item ⟨0, 5, pDef⟩ 2 pDef) 2 pDef = update_item ⟨0, 5, pDef⟩ 2 pDef ∧
     (Item.mk 0 5 pDef).num_tokens ≤ (update_item ⟨0, 5, pDef⟩ 2 pDef).num_tokens ∧
     (update_item ⟨0, 5, pDef⟩ 1 pDef).num_tokens ≤ (update_item ⟨0, 5, pDef⟩ 3 pDef).num_tokens) :=
  ⟨⟨by norm_num [pDef], by norm_num [pDef], by norm_num⟩,
    refill_idempotent_monotone ⟨0, 5, pDef⟩ pDef 2 1 3 (by norm_num [pDef])
      (by norm_num [pDef]) (by norm_num)⟩

theorem noEmpty_opsFold (ops : List Op) (s : Store) (h : NoEmptyGroups s) :
    NoEmptyGroups (ops.foldl applyOp s) := by
  induction ops generalizing s with
  | nil => exact h
  | cons op tl ih =>
    rw [List.foldl_cons]
    exact ih _ (noEmpty_applyOp s op h)

/-- C1 (counterexample): a single `handle_event` with the integer parameter
`bucket_start = -1` passes validation and leaves an entry with
`num_tokens = -1 < 0`, violating the capacity invariant. -/
theorem capacity_invariant_cex :
    ¬ AllItems WithinCapacity (run [Op.event eNegStart 0]) := by
  intro h
  have hl : getItem? (run [Op.event eNegStart 0]) "r" "a" = some ⟨0, -1, ⟨1, 10, -1⟩⟩ := by
    simp [run, applyOp, handle_event, validate_request, eNegStart, resolvedParams, emptyTP,
      fieldOrZero, fieldOrInt, JVal.isInt, JVal.toInt, consume_token, get_item, getItem?,
      getKey?, setItem, setKey, update_item, TOKEN_BUCKET_FILL_RATE, TOKEN_BUCKET_MAX,
      TOKEN_BUCKET_START]
    norm_num
  have := (h "r" "a" _ hl).1
  norm_num at this

/-- C1 (amended): for every sequence of `handle_event` and `cleanup`
operations whose events carry non-negative effective parameters, every entry
in the store satisfies `0 <= numTokens <= lastParams.bucketMax` after every
operation. -/
theorem capacity_invariant (ops : List Op) (h : ∀ op ∈ ops, opNonneg op) :
    AllItems WithinCapacity (run ops) := by
  intro rid qid it hit
  exact (allItems_run_aux ops [] h (allItems_empty _) rid qid it hit).1

/-- C1 (witness): the invariant after two default admissions around a
cleanup pass. -/
theorem capacity_invariant_witness :
    (∀ op ∈ opsW, opNonneg op) ∧ AllItems WithinCapacity (run opsW) :=
  ⟨by decide, capacity_invariant opsW (by decide)⟩

/-- C4: a never-seen pair under the default parameters is allowed for its
first 10 immediate requests and denied on the 11th at the same timestamp. -/
theorem first_burst_default :
    runTimed defaultEvent [0, 0, 0, 0, 0, 0, 0, 0, 0, 0, 0] [] =
      [true, true, true, true, true, true, true, true, true, true, false] := by
  have e0 := step_fresh 0
  have e1 : handle_event (stq 0 9) defaultEvent 0 = .ok (⟨true, none⟩, stq 0 8) := by
    rw [step_allow 0 9 0 (by norm_num)]; norm_num
  have e2 : handle_event (stq 0 8) defaultEvent 0 = .ok (⟨true, none⟩, stq 0 7) := by
    rw [step_allow 0 8 0 (by norm_num)]; norm_num
  have e3 : handle_event (stq 0 7) defaultEvent 0 = .ok (⟨true, none⟩, stq 0 6) := by
    rw [step_allow 0 7 0 (by norm_num)]; norm_num
  have e4 : handle_event (stq 0 6) defaultEvent 0 = .ok (⟨true, none⟩, stq 0 5) := by
    rw [step_allow 0 6 0 (by norm_num)]; norm_num
  have e5 : handle_event (stq 0 5) defaultEvent 0 = .ok (⟨true, none⟩, stq 0 4) := by
    rw [step_allow 0 5 0 (by norm_num)]; norm_num
  have e6 : handle_event (stq 0 4) defaultEvent 0 = .ok (⟨true, none⟩, stq 0 3) := by
    rw [step_allow 0 4 0 (by norm_num)]; norm_num
  have e7 : handle_event (stq 0 3) defaultEvent 0 = .ok (⟨true, none⟩, stq 0 2) := by
    rw [step_allow 0 3 0 (by norm_num)]; norm_num
  have e8 : handle_event (stq 0 2) defaultEvent 0 = .ok (⟨true, none⟩, stq 0 1) := by
    rw [step_allow 0 2 0 (by norm_num)]; norm_num
  have e9 : handle_event (stq 0 1) defaultEvent 0 = .ok (⟨true, none⟩, stq 0 0) := by
    rw [step_allow 0 1 0 (by norm_num)]; norm_num
  have e10 : handle_event (stq 0 0) defaultEvent 0 =
      .ok (⟨false, some "No detail today!"⟩, stq 0 0) := by
    rw [step_deny 0 0 0 (by norm_num)]; norm_num
  simp only [runTimed, e0, e1, e2, e3, e4, e5, e6, e7, e8, e9, e10]

/-- C6: after the default bucket is exhausted at time 0 (10 allowed, then a
denial), evaluating again at time 1 restores exactly one token: one more
request is allowed and the next at the same instant is denied. -/
theorem refill_recovery :
    runTimed defaultEvent [0, 0, 0, 0, 0, 0, 0, 0, 0, 0, 0, 1, 1] [] =
      [true, true, true, true, true, true, true, true, true, true, false, true, false] := by
  have e0 := step_fresh 0
  have e1 : handle_event (stq 0 9) defaultEvent 0 = .ok (⟨true, none⟩, stq 0 8) := by
    rw [step_allow 0 9 0 (by norm_num)]; norm_num
  have e2 : handle_event (stq 0 8) defaultEvent 0 = .ok (⟨true, none⟩, stq 0 7) := by
    rw [step_allow 0 8 0 (by norm_num)]; norm_num
  have e3 : handle_event (stq 0 7) defaultEvent 0 = .ok (⟨true, none⟩, stq 0 6) := by
    rw [step_allow 0 7 0 (by norm_num)]; norm_num
  have e4 : handle_event (stq 0 6) defaultEvent 0 = .ok (⟨true, none⟩, stq 0 5) := by
    rw [step_allow 0 6 0 (by norm_num)]; norm_num
  have e5 : handle_event (stq 0 5) defaultEvent 0 = .ok (⟨true, none⟩, stq 0 4) := by
    rw [step_allow 0 5 0 (by norm_num)]; norm_num
  have e6 : handle_event (stq 0 4) defaultEvent 0 = .ok (⟨true, none⟩, stq 0 3) := by
    rw [step_allow 0 4 0 (by norm_num)]; norm_num
  have e7 : handle_event (stq 0 3) defaultEvent 0 = .ok (⟨true, none⟩, stq 0 2) := by
    rw [step_allow 0 3 0 (by norm_num)]; norm_num
  have e8 : handle_event (stq 0 2) defaultEvent 0 = .ok (⟨true, none⟩, stq 0 1) := by
    rw [step_allow 0 2 0 (by norm_num)]; norm_num
  have e9 : handle_event (stq 0 1) defaultEvent 0 = .ok (⟨true, none⟩, stq 0 0) := by
    rw [step_allow 0 1 0 (by norm_num)]; norm_num
  have e10 : handle_event (stq 0 0) defaultEvent 0 =
      .ok (⟨false, some "No detail today!"⟩, stq 0 0) := by
    rw [step_deny 0 0 0 (by norm_num)]; norm_num
  have e11 : handle_event (stq 0 0) defaultEvent 1 = .ok (⟨true, none⟩, stq 1 0) := by
    rw [step_allow 0 0 1 (by norm_num)]; norm_num
  have e12 : handle_event (stq 1 0) defaultEvent 1 =
      .ok (⟨false, some "No detail today!"⟩, stq 1 0) := by
    rw [step_deny 1 0 1 (by norm_num)]; norm_num
  simp only [runTimed, e0, e1, e2, e3, e4, e5, e6, e7, e8, e9, e10, e11, e12]

/-- C5: on a valid event, after the refill step: if the refilled token count
minus one is negative the request is denied with the fixed denial string and
tokens are left as refilled; otherwise exactly one token is consumed and the
request is allowed with a null detail. -/
theorem consume_decision (s : Store) (e : Event) (now : ℚ)
    (h : validate_request e = .ok ()) :
    ((refilledItem s e now).num_tokens - 1 < 0 →
      handle_event s e now = .ok (⟨false, some "No detail today!"⟩,
        setItem s (eReq e) (eRes e) (refilledItem s e now))) ∧
    (¬ (refilledItem s e now).num_tokens - 1 < 0 →
      handle_event s e now = .ok (⟨true, none⟩,
        setItem s (eReq e) (eRes e)
          { refilledItem s e now with
              num_tokens := (refilledItem s e now).num_tokens - 1 })) := by
  constructor
  · intro hc
    have hct : consume_token s (e.requester_id.getD "") (e.resource_id.getD "") now
        (resolvedParams e) =
        (false, setItem s (e.requester_id.getD "") (e.resource_id.getD "")
          (refilledItem s e now)) := by
      show (if (refilledItem s e now).num_tokens - 1 < 0
            then (false, setItem s (e.requester_id.getD "") (e.resource_id.getD "")
              (refilledItem s e now))
            else (true, setItem s (e.requester_id.getD "") (e.resource_id.getD "")
              { refilledItem s e now with
                  num_tokens := (refilledItem s e now).num_tokens - 1 })) = _
      rw [if_pos hc]
    unfold handle_event
    rw [h]
    dsimp only []
    rw [hct]
    rfl
  · intro hc
    have hct : consume_token s (e.requester_id.getD "") (e.resource_id.getD "") now
        (resolvedParams e) =
        (true, setItem s (e.requester_id.getD "") (e.resource_id.getD "")
          { refilledItem s e now with
              num_tokens := (refilledItem s e now).num_tokens - 1 }) := by
      show (if (refilledItem s e now).num_tokens - 1 < 0
            then (false, setItem s (e.requester_id.getD "") (e.resource_id.getD "")
              (refilledItem s e now))
            else (true, setItem s (e.requester_id.getD "") (e.resource_id.getD "")
              { refilledItem s e now with
                  num_tokens := (refilledItem s e now).num_tokens - 1 })) = _
      rw [if_neg hc]
    unfold handle_event
    rw [h]
    dsimp only []
    rw [hct]
    rfl

/-- C5 (witness): the statement at the default event on the empty store. -/
theorem consume_decision_witness :
    validate_request defaultEvent = .ok () ∧
    (((refilledItem [] defaultEvent 0).num_tokens - 1 < 0 →
      handle_event [] defaultEvent 0 = .ok (⟨false, some "No detail today!"⟩,
        setItem [] (eReq defaultEvent) (eRes defaultEvent) (refilledItem [] defaultEvent 0))) ∧
     (¬ (refilledItem [] defaultEvent 0).num_tokens - 1 < 0 →
      handle_event [] defaultEvent 0 = .ok (⟨true, none⟩,
        setItem [] (eReq defaultEvent) (eRes defaultEvent)
          { refilledItem [] defaultEvent 0 with
              num_tokens := (refilledItem [] defaultEvent 0).num_tokens - 1 }))) :=
  ⟨rfl, consume_decision [] defaultEvent 0 rfl⟩

/-- C7: cleanup refills every entry to the cleanup instant with the entry's
own stored parameters, removes exactly the entries whose refilled token count
reaches their stored bucket max, keeps every other entry in its refilled
state, and (given no resource group was empty before) leaves no empty
resource group behind. -/
theorem cleanup_mark_sweep (s : Store) (now : ℚ) (hnd : NodupStore s) :
    (∀ rid qid, getItem? (cleanup s now) rid qid =
      match getItem? s rid qid with
      | none => none
      | some it =>
        let it' := update_item it now it.last_params
        if (it'.last_params.bucket_max : ℚ) ≤ it'.num_tokens then none else some it') ∧
    (NoEmptyGroups s → NoEmptyGroups (cleanup s now)) :=
  ⟨fun rid qid => getItem?_cleanup s now hnd rid qid, noEmpty_cleanup s now⟩

/-- C7 (witness): on a store with a full bucket "a" and a drained bucket "b",
cleanup evicts "a" and preserves "b" in its refilled state. -/
theorem cleanup_mark_sweep_witness :
    NodupStore sFix ∧
    getItem? (cleanup sFix 0) "r" "a" = none ∧
    getItem? (cleanup sFix 0) "r" "b" = some ⟨0, 3, pDef⟩ := by
  have hnd : NodupStore sFix := by
    constructor
    · simp [sFix]
    · intro rc hrc
      simp [sFix] at hrc
      simp [hrc]
  have h := cleanup_mark_sweep sFix 0 hnd
  refine ⟨hnd, ?_, ?_⟩
  · rw [h.1 "r" "a"]
    simp [sFix, getItem?, getKey?]
    norm_num [update_item, pDef, min_def, max_def]
  · rw [h.1 "r" "b"]
    simp [sFix, getItem?, getKey?]
    norm_num [update_item, pDef, min_def, max_def]

/-- C9: a `handle_event` call (successful or rejected) leaves the entry of
every (requester, resource) pair other than the event's own exactly as it
was. -/
theorem per_key_isolation (s : Store) (e : Event) (now : ℚ) (q r : String)
    (hne : ¬ (q = eReq e ∧ r = eRes e)) :
    getItem? (applyOp s (.event e now)) q r = getItem? s q r := by
  show getItem? (match handle_event s e now with
    | .ok rr => rr.2
    | .error _ => s) q r = getItem? s q r
  cases hev : handle_event s e now with
  | error err => rfl
  | ok rr =>
    obtain ⟨d, s'⟩ := rr
    obtain ⟨-, hcase⟩ := handle_event_ok_shape s e now d s' hev
    rcases hcase with ⟨-, hs', -⟩ | ⟨-, hs', -⟩ <;>
      rw [hs', getItem?_setItem, if_neg hne]

/-- C9 (witness): after a default admission creating the ("r","a") entry, the
("x","y") slot is unchanged. -/
theorem per_key_isolation_witness :
    ¬ (("x" : String) = eReq defaultEvent ∧ ("y" : String) = eRes defaultEvent) ∧
    getItem? (applyOp [] (.event defaultEvent 0)) "x" "y" = getItem? [] "x" "y" :=
  ⟨by simp [eReq, defaultEvent],
    per_key_isolation [] defaultEvent 0 "x" "y" (by simp [eReq, defaultEvent])⟩

/-- C10: starting from the empty store, after any sequence of `handle_event`
and `cleanup` operations the store contains no empty resource group. -/
theorem no_empty_groups (ops : List Op) : NoEmptyGroups (run ops) := by
  unfold run
  exact noEmpty_opsFold ops [] noEmpty_nil

end GlobusThrottled
